import Mathlib

/-!
Verification of the `uoctl` ioctl request-code library.

The library packs `(direction, type, number, size)` tuples into 32-bit
`ioctl` request codes.  Two platform codecs exist:

* `Linux._IOC` (from `src/platform/linux.rs`): a generic shifted layout whose
  size/direction field widths depend on the target architecture (the
  mips/sparc/powerpc subset uses 13 size bits, everything else 14).
* `Bsd._IOC` (from `src/platform/bsd.rs`): a fixed layout with direction
  expressed as high-order bit patterns.

On top of the codecs, `lib.rs` provides the `Dir` direction type with a
checked bitwise-or, the `Ioctl` handle with a phantom argument marker, the
`_IO`/`_IOR`/`_IOW`/`_IOWR`/`_IOWINT`/`_IOC` constructors (which enforce the
platform's maximum argument size with an assertion, modelled here as
`Option`), and the syscall invocation wrapper.

Machine integers are modelled as `ℕ` with explicit `% 2 ^ 32` where the Rust
code computes in `u32`; the fatal assertion/panic paths are modelled as
`Option`/`none`.
-/

namespace Linux

/-- The per-architecture constant block of `src/platform/linux.rs`. -/
structure Consts where
  sizebits : ℕ
  ioc_none : ℕ
  ioc_read : ℕ
  ioc_write : ℕ
deriving DecidableEq

/-- The `consts` module selected on mips/sparc/powerpc targets. -/
def altConsts : Consts := ⟨13, 1, 2, 4⟩

/-- The `consts` module selected on all other (default) targets. -/
def genConsts : Consts := ⟨14, 0, 2, 1⟩

/-- Compile-time selection of the constant block: `alt = true` stands for the
mips/sparc/powerpc architecture subset. -/
def consts (alt : Bool) : Consts := if alt then altConsts else genConsts

def _IOC_NRBITS : ℕ := 8
def _IOC_TYPEBITS : ℕ := 8

def _IOC_NRSHIFT : ℕ := 0
def _IOC_TYPESHIFT : ℕ := _IOC_NRSHIFT + _IOC_NRBITS
def _IOC_SIZESHIFT : ℕ := _IOC_TYPESHIFT + _IOC_TYPEBITS
def _IOC_DIRSHIFT (alt : Bool) : ℕ := _IOC_SIZESHIFT + (consts alt).sizebits

/-- `_IOC_DIRBITS` for the two constant blocks, from the repository's
`consts.rs` bit tables (3 on the mips/sparc/powerpc subset, 2 otherwise). -/
def dirbits (alt : Bool) : ℕ := if alt then 3 else 2

/-- `MAX_ARG_SIZE` from `src/platform/linux.rs`: the largest argument size
that can be portably encoded, `(1 << 13) - 1`, independent of `alt`. -/
def MAX_ARG_SIZE : ℕ := (1 <<< 13) - 1

/-- `_IOC` from `src/platform/linux.rs`, computed in `u32`. -/
def _IOC (alt : Bool) (dir ty nr size : ℕ) : ℕ :=
  (dir <<< _IOC_DIRSHIFT alt ||| ty <<< _IOC_TYPESHIFT ||| nr <<< _IOC_NRSHIFT |||
    size <<< _IOC_SIZESHIFT) % 2 ^ 32

end Linux

namespace Bsd

def IOCPARM_SHIFT : ℕ := 13

/-- `MAX_ARG_SIZE` from `src/platform/bsd.rs`. -/
def MAX_ARG_SIZE : ℕ := (1 <<< IOCPARM_SHIFT) - 1

def IOC_VOID : ℕ := 0x20000000
def IOC_OUT : ℕ := 0x40000000
def IOC_IN : ℕ := 0x80000000

/-- `_IOC` from `src/platform/bsd.rs`, computed in `u32`. -/
def _IOC (dir group num len : ℕ) : ℕ :=
  (dir ||| len <<< 16 ||| group <<< 8 ||| num) % 2 ^ 32

end Bsd

/-- If `b` fits below the shift, bitwise or of a shifted value with `b` is
addition. -/
lemma shiftLeft_lor_eq_add (a b k : ℕ) (hb : b < 2 ^ k) :
    a <<< k ||| b = a * 2 ^ k + b := by
  rw [Nat.shiftLeft_eq, Nat.mul_comm, ← Nat.mul_add_lt_is_or hb, Nat.mul_comm]

/-- Additive form of the generic Linux codec on in-range inputs. -/
lemma linux_IOC_eq_add (alt : Bool) (dir ty nr size : ℕ)
    (hd : dir < 2 ^ Linux.dirbits alt) (ht : ty < 2 ^ 8) (hn : nr < 2 ^ 8)
    (hs : size < 2 ^ (Linux.consts alt).sizebits) :
    Linux._IOC alt dir ty nr size =
      dir * 2 ^ (16 + (Linux.consts alt).sizebits) + size * 2 ^ 16 + ty * 2 ^ 8 + nr := by
  cases alt <;>
  · simp only [Linux._IOC, Linux._IOC_DIRSHIFT, Linux._IOC_SIZESHIFT, Linux._IOC_TYPESHIFT,
      Linux._IOC_NRSHIFT, Linux._IOC_NRBITS, Linux._IOC_TYPEBITS, Linux.consts, Linux.genConsts,
      Linux.altConsts, Linux.dirbits, if_true, if_false, Bool.false_eq_true,
      Nat.shiftLeft_zero] at *
    rw [Nat.lor_assoc, Nat.lor_assoc, Nat.lor_comm nr _, ← Nat.lor_assoc (ty <<< 8),
      Nat.lor_comm (ty <<< 8) _, Nat.lor_assoc]
    rw [shiftLeft_lor_eq_add ty nr 8 hn]
    rw [shiftLeft_lor_eq_add size (ty * 2 ^ 8 + nr) 16 (by omega)]
    rw [shiftLeft_lor_eq_add dir _ _ (by omega)]
    rw [Nat.mod_eq_of_lt (by omega)]
    ring

/-- Additive form of the BSD codec on in-range inputs. -/
lemma bsd_IOC_eq_add (dir group num len : ℕ)
    (hdm : dir % 2 ^ 29 = 0) (hdu : dir < 2 ^ 32)
    (hg : group < 2 ^ 8) (hn : num < 2 ^ 8) (hl : len < 2 ^ 13) :
    Bsd._IOC dir group num len = dir + len * 2 ^ 16 + group * 2 ^ 8 + num := by
  simp only [Bsd._IOC]
  rw [Nat.lor_assoc, Nat.lor_assoc]
  rw [shiftLeft_lor_eq_add group num 8 hn]
  rw [shiftLeft_lor_eq_add len (group * 2 ^ 8 + num) 16 (by omega)]
  obtain ⟨d, rfl⟩ : ∃ d, dir = 2 ^ 29 * d := ⟨dir / 2 ^ 29, by omega⟩
  rw [← Nat.mul_add_lt_is_or (b := len * 2 ^ 16 + (group * 2 ^ 8 + num)) (by omega) d]
  rw [Nat.mod_eq_of_lt (by omega)]
  ring

/-- The compile-time platform record selected by target configuration:
the three raw direction constants, the maximum argument size, and the
request-code packing function `_IOC`. -/
structure Platform where
  ioc_none : ℕ
  ioc_read : ℕ
  ioc_write : ℕ
  max_arg_size : ℕ
  pack : ℕ → ℕ → ℕ → ℕ → ℕ

/-- The platform module for Linux/Android targets (`src/platform/linux.rs`);
`alt = true` selects the mips/sparc/powerpc constant block. -/
def linuxPlatform (alt : Bool) : Platform where
  ioc_none := (Linux.consts alt).ioc_none
  ioc_read := (Linux.consts alt).ioc_read
  ioc_write := (Linux.consts alt).ioc_write
  max_arg_size := Linux.MAX_ARG_SIZE
  pack := Linux._IOC alt

/-- The platform module for BSD-derived targets (`src/platform/bsd.rs`). -/
def bsdPlatform : Platform where
  ioc_none := Bsd.IOC_VOID
  ioc_read := Bsd.IOC_OUT
  ioc_write := Bsd.IOC_IN
  max_arg_size := Bsd.MAX_ARG_SIZE
  pack := Bsd._IOC

namespace Uoctl

/-- A Rust type used as an `Ioctl` argument: an abstract identity plus its
`size_of` in bytes. -/
structure RustType where
  id : ℕ
  byteSize : ℕ
deriving DecidableEq

/-- `std::ffi::c_int`: 4 bytes on every platform this library supports. -/
def c_int : RustType := ⟨0, 4⟩

/-- The zero-footprint argument marker: the type parameter `T` of
`Ioctl<T>` (either `NoArgs`, `*const T`, `*mut T`, or a direct value `T`). -/
inductive Marker where
  | noArgs : Marker
  | constPtr : RustType → Marker
  | mutPtr : RustType → Marker
  | direct : RustType → Marker
deriving DecidableEq

/-- `Ioctl<T>`: a packed request code plus the phantom argument marker. -/
structure Ioctl where
  request : ℕ
  marker : Marker
deriving DecidableEq

/-- `Ioctl::from_raw`: construct unchecked from a raw request code. -/
def Ioctl.from_raw (request : ℕ) (m : Marker) : Ioctl := ⟨request, m⟩

/-- `Ioctl::with_arg::<T2>`: change the marker, keep the request code. -/
def Ioctl.with_arg (i : Ioctl) (m2 : Marker) : Ioctl := ⟨i.request, m2⟩

/-- `Ioctl::with_direct_arg` (defined on `Ioctl<*const T>` only; on any
other marker the Rust method does not exist, so the embedding is the
identity there). -/
def Ioctl.with_direct_arg (i : Ioctl) : Ioctl :=
  match i.marker with
  | .constPtr t => i.with_arg (.direct t)
  | _ => i

/-- `Ioctl::cast_mut` (defined on `Ioctl<*const T>` only). -/
def Ioctl.cast_mut (i : Ioctl) : Ioctl :=
  match i.marker with
  | .constPtr t => i.with_arg (.mutPtr t)
  | _ => i

/-- `Ioctl::cast_const` (defined on `Ioctl<*mut T>` only). -/
def Ioctl.cast_const (i : Ioctl) : Ioctl :=
  match i.marker with
  | .mutPtr t => i.with_arg (.constPtr t)
  | _ => i

/-- `Dir`: direction of an `Ioctl`, wrapping a raw platform value. -/
structure Dir where
  val : ℕ
deriving DecidableEq

/-- `_IOC_NONE` (alias `IOC_VOID`). -/
def _IOC_NONE (p : Platform) : Dir := ⟨p.ioc_none⟩

/-- `_IOC_READ` (alias `IOC_OUT`). -/
def _IOC_READ (p : Platform) : Dir := ⟨p.ioc_read⟩

/-- `_IOC_WRITE` (alias `IOC_IN`). -/
def _IOC_WRITE (p : Platform) : Dir := ⟨p.ioc_write⟩

/-- `_IOC_READ_WRITE` (alias `IOC_INOUT`): precomputed
`Dir(platform::_IOC_READ | platform::_IOC_WRITE)`. -/
def _IOC_READ_WRITE (p : Platform) : Dir := ⟨p.ioc_read ||| p.ioc_write⟩

/-- `IOC_VOID`, identical to `_IOC_NONE`. -/
def IOC_VOID (p : Platform) : Dir := _IOC_NONE p

/-- `IOC_OUT`, identical to `_IOC_READ`. -/
def IOC_OUT (p : Platform) : Dir := _IOC_READ p

/-- `IOC_IN`, identical to `_IOC_WRITE`. -/
def IOC_IN (p : Platform) : Dir := _IOC_WRITE p

/-- `IOC_INOUT`, identical to `_IOC_READ_WRITE`. -/
def IOC_INOUT (p : Platform) : Dir := _IOC_READ_WRITE p

/-- `impl BitOr for Dir` (`lib.rs` lines 460-475): combining `_IOC_NONE`
with any other value is a fatal panic, modelled as `none`; otherwise the
result is the bitwise union of the raw values. -/
def dirOr (p : Platform) (a b : Dir) : Option Dir :=
  if (a = _IOC_NONE p ∧ b ≠ _IOC_NONE p) ∨ (a ≠ _IOC_NONE p ∧ b = _IOC_NONE p) then
    none
  else
    some ⟨a.val ||| b.val⟩

/-- `_IOC` from `lib.rs` (lines 799-804): asserts
`size <= platform::MAX_ARG_SIZE` (assertion failure modelled as `none`),
then packs the code with the platform codec.  The marker records the
target type parameter `T`. -/
def _IOC (p : Platform) (m : Marker) (dir : Dir) (ty nr size : ℕ) : Option Ioctl :=
  if size ≤ p.max_arg_size then
    some (Ioctl.from_raw (p.pack dir.val ty nr size) m)
  else
    none

/-- `_IO`: no-argument constructor, direction `_IOC_NONE`, size 0. -/
def _IO (p : Platform) (ty nr : ℕ) : Option Ioctl :=
  _IOC p .noArgs (_IOC_NONE p) ty nr 0

/-- `_IOR::<T>`: read constructor; the `const` block statically asserts
`size_of::<T>() <= MAX_ARG_SIZE` before delegating to `_IOC`. -/
def _IOR (p : Platform) (T : RustType) (ty nr : ℕ) : Option Ioctl :=
  if T.byteSize ≤ p.max_arg_size then
    _IOC p (.mutPtr T) (_IOC_READ p) ty nr T.byteSize
  else
    none

/-- `_IOW::<T>`: write constructor with a `*const T` marker. -/
def _IOW (p : Platform) (T : RustType) (ty nr : ℕ) : Option Ioctl :=
  if T.byteSize ≤ p.max_arg_size then
    _IOC p (.constPtr T) (_IOC_WRITE p) ty nr T.byteSize
  else
    none

/-- `_IOWR::<T>`: read-write constructor with a `*mut T` marker. -/
def _IOWR (p : Platform) (T : RustType) (ty nr : ℕ) : Option Ioctl :=
  if T.byteSize ≤ p.max_arg_size then
    _IOC p (.mutPtr T) (_IOC_READ_WRITE p) ty nr T.byteSize
  else
    none

/-- `_IOWINT` (`lib.rs` lines 739-742): BSD direct-int constructor,
`_IOC(IOC_VOID, group, nr, size_of::<c_int>())` with marker `c_int`. -/
def _IOWINT (p : Platform) (group nr : ℕ) : Option Ioctl :=
  _IOC p (.direct c_int) (IOC_VOID p) group nr c_int.byteSize

/-- `Ioctl::<T>::ioctl` (`lib.rs` lines 391-398): call the syscall
collaborator `sys` with the file descriptor, the packed request code, and
the argument word; a `-1` result becomes the last-OS-error, any other
result is returned unchanged. -/
def Ioctl.ioctl (i : Ioctl) (sys : ℤ → ℕ → ℤ → ℤ) (errno : ℤ) (fd arg : ℤ) :
    Except ℤ ℤ :=
  let res := sys fd i.request arg
  if res = -1 then Except.error errno else Except.ok res

/-- `Ioctl::<NoArgs>::ioctl` (`lib.rs` lines 366-373): same as above but
passing the literal `0` as the dummy argument word. -/
def Ioctl.ioctlNoArgs (i : Ioctl) (sys : ℤ → ℕ → ℤ → ℤ) (errno : ℤ) (fd : ℤ) :
    Except ℤ ℤ :=
  let res := sys fd i.request 0
  if res = -1 then Except.error errno else Except.ok res

/-- The `v4l2_capability` struct from the library's worked example:
16 + 32 + 32 + 4 + 4 + 4 + 12 = 104 bytes. -/
def v4l2_capability : RustType := ⟨1, 104⟩

end Uoctl

/-- C1: for every valid direction, 8-bit type/number, and size not exceeding
the platform maximum, the packed request code is bit-exact: on the generic
Linux-family layout bits [0:8) hold `nr`, [8:16) hold `ty`, [16:16+S) hold
`size` and [16+S:16+S+D) hold `dir` with (S,D) = (14,2) by default and
(13,3) on the mips/sparc/powerpc subset; on the BSD layout bits [0:8) hold
`num`, [8:16) hold `group`, [16:29) hold `size`, and the top bits are
exactly the fixed direction pattern (0x20000000 / 0x40000000 / 0x80000000). -/
theorem C1_codec_bit_exact :
    (∀ (alt : Bool) (dir ty nr size : ℕ),
        dir < 2 ^ Linux.dirbits alt → ty < 2 ^ 8 → nr < 2 ^ 8 →
        size ≤ Linux.MAX_ARG_SIZE →
        Linux._IOC alt dir ty nr size % 2 ^ 8 = nr ∧
        Linux._IOC alt dir ty nr size / 2 ^ 8 % 2 ^ 8 = ty ∧
        Linux._IOC alt dir ty nr size / 2 ^ 16 % 2 ^ (Linux.consts alt).sizebits = size ∧
        Linux._IOC alt dir ty nr size / 2 ^ (16 + (Linux.consts alt).sizebits) %
          2 ^ Linux.dirbits alt = dir) ∧
    (∀ (dir group num len : ℕ),
        (dir = Bsd.IOC_VOID ∨ dir = Bsd.IOC_OUT ∨ dir = Bsd.IOC_IN) →
        group < 2 ^ 8 → num < 2 ^ 8 → len ≤ Bsd.MAX_ARG_SIZE →
        Bsd._IOC dir group num len % 2 ^ 8 = num ∧
        Bsd._IOC dir group num len / 2 ^ 8 % 2 ^ 8 = group ∧
        Bsd._IOC dir group num len / 2 ^ 16 % 2 ^ 13 = len ∧
        Bsd._IOC dir group num len / 2 ^ 29 * 2 ^ 29 = dir) := by
  constructor
  · intro alt dir ty nr size hd ht hn hs
    have hmax : Linux.MAX_ARG_SIZE = 8191 := by decide
    have hs' : size < 2 ^ (Linux.consts alt).sizebits := by
      cases alt <;>
        simp only [Linux.consts, Linux.genConsts, Linux.altConsts, if_true, if_false,
          Bool.false_eq_true] <;> omega
    rw [linux_IOC_eq_add alt dir ty nr size hd ht hn hs']
    cases alt <;>
      simp only [Linux.consts, Linux.genConsts, Linux.altConsts, Linux.dirbits, if_true,
        if_false, Bool.false_eq_true] at * <;> omega
  · intro dir group num len hdir hg hn hl
    have hmax : Bsd.MAX_ARG_SIZE = 8191 := by decide
    have h := bsd_IOC_eq_add dir group num len
    rcases hdir with rfl | rfl | rfl <;>
    · rw [bsd_IOC_eq_add _ group num len (by decide) (by decide) hg hn (by omega)]
      simp only [Bsd.IOC_VOID, Bsd.IOC_OUT, Bsd.IOC_IN] at *
      omega

/-- Witness for C1 at concrete inputs: the generic layout at
`(dir=2, ty=0x56, nr=0, size=104)` and the BSD layout at
`(dir=IOC_OUT, group=0x56, num=7, len=104)`. -/
theorem C1_codec_bit_exact_witness :
    (Linux._IOC false 2 0x56 0 104 % 2 ^ 8 = 0 ∧
     Linux._IOC false 2 0x56 0 104 / 2 ^ 8 % 2 ^ 8 = 0x56 ∧
     Linux._IOC false 2 0x56 0 104 / 2 ^ 16 % 2 ^ (Linux.consts false).sizebits = 104 ∧
     Linux._IOC false 2 0x56 0 104 / 2 ^ (16 + (Linux.consts false).sizebits) %
       2 ^ Linux.dirbits false = 2) ∧
    (Bsd._IOC Bsd.IOC_OUT 0x56 7 104 % 2 ^ 8 = 7 ∧
     Bsd._IOC Bsd.IOC_OUT 0x56 7 104 / 2 ^ 8 % 2 ^ 8 = 0x56 ∧
     Bsd._IOC Bsd.IOC_OUT 0x56 7 104 / 2 ^ 16 % 2 ^ 13 = 104 ∧
     Bsd._IOC Bsd.IOC_OUT 0x56 7 104 / 2 ^ 29 * 2 ^ 29 = Bsd.IOC_OUT) :=
  ⟨C1_codec_bit_exact.1 false 2 0x56 0 104 (by decide) (by decide) (by decide) (by decide),
   C1_codec_bit_exact.2 Bsd.IOC_OUT 0x56 7 104 (Or.inr (Or.inl rfl)) (by decide) (by decide)
     (by decide)⟩

/-- C2: on the generic 14-bit-size layout, `_IOR::<T>(b'V', 0)` for a
104-byte `T` yields exactly `2 << 30 | 104 << 16 | 0x56 << 8 | 0`, the
published `VIDIOC_QUERYCAP` request code `0x80685600`. -/
theorem C2_querycap_fixed_point :
    Uoctl._IOR (linuxPlatform false) Uoctl.v4l2_capability 0x56 0 =
      some (Uoctl.Ioctl.from_raw 0x80685600 (.mutPtr Uoctl.v4l2_capability)) ∧
    (0x80685600 : ℕ) = 2 <<< 30 ||| 104 <<< 16 ||| 0x56 <<< 8 ||| 0 := by
  decide

/-- C3: for every platform, direction, type and number, encoding at exactly
the platform maximum size succeeds, encoding at the maximum plus one hits
the assertion (`none`), and under `size ≤ max` the assertion branch is
unreachable. -/
theorem C3_size_assertion_boundary :
    ∀ (p : Platform) (m : Uoctl.Marker) (dir : Uoctl.Dir) (ty nr : ℕ),
      (Uoctl._IOC p m dir ty nr p.max_arg_size).isSome = true ∧
      Uoctl._IOC p m dir ty nr (p.max_arg_size + 1) = none ∧
      ∀ size, size ≤ p.max_arg_size → (Uoctl._IOC p m dir ty nr size).isSome = true := by
  intro p m dir ty nr
  refine ⟨?_, ?_, ?_⟩
  · simp [Uoctl._IOC]
  · simp [Uoctl._IOC]
  · intro size hsize
    simp [Uoctl._IOC, hsize]

/-- Witness for C3 on the default Linux platform at `ty=1`, `nr=2`,
in-range size 5. -/
theorem C3_size_assertion_boundary_witness :
    (Uoctl._IOC (linuxPlatform false) .noArgs ⟨0⟩ 1 2
        (linuxPlatform false).max_arg_size).isSome = true ∧
    Uoctl._IOC (linuxPlatform false) .noArgs ⟨0⟩ 1 2
        ((linuxPlatform false).max_arg_size + 1) = none ∧
    (Uoctl._IOC (linuxPlatform false) .noArgs ⟨0⟩ 1 2 5).isSome = true :=
  ⟨(C3_size_assertion_boundary (linuxPlatform false) .noArgs ⟨0⟩ 1 2).1,
   (C3_size_assertion_boundary (linuxPlatform false) .noArgs ⟨0⟩ 1 2).2.1,
   (C3_size_assertion_boundary (linuxPlatform false) .noArgs ⟨0⟩ 1 2).2.2 5 (by decide)⟩

/-- C4 counterexample: on the default 14-bit generic layout the exposed
maximum argument size is 8191, not the largest value representable in the
14-bit size field (2^14 - 1 = 16383), so the claim fails as stated. -/
theorem C4_counterexample :
    ¬ (linuxPlatform false).max_arg_size = 2 ^ (Linux.consts false).sizebits - 1 := by
  decide

/-- C4 (amended): the maximum argument byte size exposed by every platform
layout is the portable bound 2^13 - 1 = 8191; this equals 2^S - 1 on the
13-bit generic layout and on the BSD layout, but on the default 14-bit
generic layout it is strictly smaller than 2^14 - 1 = 16383. -/
theorem C4_max_arg_size_amended :
    Linux.MAX_ARG_SIZE = 2 ^ 13 - 1 ∧
    Bsd.MAX_ARG_SIZE = 2 ^ 13 - 1 ∧
    Linux.MAX_ARG_SIZE = 2 ^ (Linux.consts true).sizebits - 1 ∧
    Bsd.MAX_ARG_SIZE = 2 ^ Bsd.IOCPARM_SHIFT - 1 ∧
    Linux.MAX_ARG_SIZE < 2 ^ (Linux.consts false).sizebits - 1 ∧
    (linuxPlatform true).max_arg_size = Linux.MAX_ARG_SIZE ∧
    (linuxPlatform false).max_arg_size = Linux.MAX_ARG_SIZE ∧
    bsdPlatform.max_arg_size = Bsd.MAX_ARG_SIZE := by
  decide

/-- C5: combining two direction values fails (fatal panic, modelled as
`none`) if and only if exactly one of them equals the platform's "none"
value; in every other case the result is the bitwise union of the raw
values; in particular `none | x` and `x | none` both fail for every
`x ≠ none`, in both argument orders. -/
theorem C5_dir_or_none_check :
    ∀ (p : Platform) (a b : Uoctl.Dir),
      (Uoctl.dirOr p a b = none ↔
        ((a = Uoctl._IOC_NONE p ∧ b ≠ Uoctl._IOC_NONE p) ∨
         (a ≠ Uoctl._IOC_NONE p ∧ b = Uoctl._IOC_NONE p))) ∧
      (¬((a = Uoctl._IOC_NONE p ∧ b ≠ Uoctl._IOC_NONE p) ∨
         (a ≠ Uoctl._IOC_NONE p ∧ b = Uoctl._IOC_NONE p)) →
        Uoctl.dirOr p a b = some ⟨a.val ||| b.val⟩) ∧
      (a ≠ Uoctl._IOC_NONE p →
        Uoctl.dirOr p (Uoctl._IOC_NONE p) a = none ∧
        Uoctl.dirOr p a (Uoctl._IOC_NONE p) = none) := by
  intro p a b
  refine ⟨?_, ?_, ?_⟩
  · unfold Uoctl.dirOr
    split <;> simp_all
  · intro h
    unfold Uoctl.dirOr
    split <;> simp_all
  · intro h
    constructor <;> (unfold Uoctl.dirOr; split <;> simp_all)

/-- Witness for C5: on the default Linux platform, combining `_IOC_NONE`
with the read value (2) fails in both argument orders. -/
theorem C5_dir_or_none_check_witness :
    Uoctl.dirOr (linuxPlatform false) (Uoctl._IOC_NONE (linuxPlatform false)) ⟨2⟩ = none ∧
    Uoctl.dirOr (linuxPlatform false) ⟨2⟩ (Uoctl._IOC_NONE (linuxPlatform false)) = none :=
  (C5_dir_or_none_check (linuxPlatform false) ⟨2⟩ ⟨2⟩).2.2 (by decide)

/-- C6: direction combination is idempotent (`d | d = d` for every direction
value), commutative over {read, write, read-write}, and `read | write`
equals the precomputed `_IOC_READ_WRITE` constant, on every supported
platform. -/
theorem C6_dir_or_algebra :
    (∀ (p : Platform) (d : Uoctl.Dir), Uoctl.dirOr p d d = some d) ∧
    (∀ p : Platform,
      p = linuxPlatform false ∨ p = linuxPlatform true ∨ p = bsdPlatform →
      Uoctl.dirOr p (Uoctl._IOC_READ p) (Uoctl._IOC_WRITE p) =
        some (Uoctl._IOC_READ_WRITE p) ∧
      ∀ a b : Uoctl.Dir,
        (a = Uoctl._IOC_READ p ∨ a = Uoctl._IOC_WRITE p ∨ a = Uoctl._IOC_READ_WRITE p) →
        (b = Uoctl._IOC_READ p ∨ b = Uoctl._IOC_WRITE p ∨ b = Uoctl._IOC_READ_WRITE p) →
        Uoctl.dirOr p a b = Uoctl.dirOr p b a) := by
  constructor
  · intro p d
    obtain ⟨v⟩ := d
    unfold Uoctl.dirOr
    rw [if_neg (by tauto)]
    simp [Nat.or_self]
  · intro p hp
    rcases hp with rfl | rfl | rfl <;>
      refine ⟨by decide, ?_⟩ <;>
      · intro a b ha hb
        rcases ha with rfl | rfl | rfl <;> rcases hb with rfl | rfl | rfl <;> decide

/-- Witness for C6: idempotence at the read value on the default Linux
platform, and `read | write = read-write` plus one commutation instance on
the BSD platform. -/
theorem C6_dir_or_algebra_witness :
    Uoctl.dirOr (linuxPlatform false) ⟨2⟩ ⟨2⟩ = some ⟨2⟩ ∧
    Uoctl.dirOr bsdPlatform (Uoctl._IOC_READ bsdPlatform) (Uoctl._IOC_WRITE bsdPlatform) =
      some (Uoctl._IOC_READ_WRITE bsdPlatform) ∧
    Uoctl.dirOr bsdPlatform (Uoctl._IOC_READ bsdPlatform) (Uoctl._IOC_WRITE bsdPlatform) =
      Uoctl.dirOr bsdPlatform (Uoctl._IOC_WRITE bsdPlatform) (Uoctl._IOC_READ bsdPlatform) :=
  ⟨C6_dir_or_algebra.1 (linuxPlatform false) ⟨2⟩,
   (C6_dir_or_algebra.2 bsdPlatform (Or.inr (Or.inr rfl))).1,
   (C6_dir_or_algebra.2 bsdPlatform (Or.inr (Or.inr rfl))).2 _ _ (Or.inl rfl)
     (Or.inr (Or.inl rfl))⟩

/-- C7 counterexample: `_IOWINT(1, 2)` on the BSD platform produces the
code 0x20040102, whose top bits are the VOID/none pattern 0x20000000 and
not the write pattern 0x80000000 (`IOC_IN`); the write-direction encoding
of the same components is a different code, so the claim that `_IOWINT`
uses the write direction fails. -/
theorem C7_counterexample :
    Uoctl._IOWINT bsdPlatform 1 2 =
      some (Uoctl.Ioctl.from_raw 0x20040102 (.direct Uoctl.c_int)) ∧
    0x20040102 / 2 ^ 29 * 2 ^ 29 = Bsd.IOC_VOID ∧
    Bsd.IOC_VOID ≠ Bsd.IOC_IN ∧
    Uoctl._IOWINT bsdPlatform 1 2 ≠
      some (Uoctl.Ioctl.from_raw (Bsd._IOC Bsd.IOC_IN 1 2 4) (.direct Uoctl.c_int)) := by
  decide

/-- C7 (amended): `_IOWINT(group, nr)` builds its request code with the
BSD layout's VOID/none direction (not the write direction) and with size
equal to the byte size of a C `int`, and returns a handle whose argument
marker is the direct scalar `c_int`. -/
theorem C7_iowint_amended :
    ∀ group nr : ℕ, group < 2 ^ 8 → nr < 2 ^ 8 →
      Uoctl._IOWINT bsdPlatform group nr =
        some (Uoctl.Ioctl.from_raw (Bsd._IOC Bsd.IOC_VOID group nr Uoctl.c_int.byteSize)
          (.direct Uoctl.c_int)) ∧
      ∀ i, Uoctl._IOWINT bsdPlatform group nr = some i →
        i.marker = .direct Uoctl.c_int ∧
        i.request / 2 ^ 29 * 2 ^ 29 = Bsd.IOC_VOID ∧
        i.request / 2 ^ 16 % 2 ^ 13 = Uoctl.c_int.byteSize := by
  intro group nr hg hn
  have h1 : Uoctl._IOWINT bsdPlatform group nr =
      some (Uoctl.Ioctl.from_raw (Bsd._IOC Bsd.IOC_VOID group nr Uoctl.c_int.byteSize)
        (.direct Uoctl.c_int)) := by
    unfold Uoctl._IOWINT Uoctl._IOC
    rw [if_pos (by decide)]
    rfl
  refine ⟨h1, ?_⟩
  intro i hi
  rw [h1] at hi
  obtain rfl := Option.some.inj hi
  have hb : Uoctl.c_int.byteSize = 4 := rfl
  have hadd := bsd_IOC_eq_add Bsd.IOC_VOID group nr Uoctl.c_int.byteSize (by decide) (by decide)
    hg hn (by decide)
  have hvoid : Bsd.IOC_VOID = 0x20000000 := rfl
  refine ⟨rfl, ?_, ?_⟩
  · show Bsd._IOC Bsd.IOC_VOID group nr Uoctl.c_int.byteSize / 2 ^ 29 * 2 ^ 29 = Bsd.IOC_VOID
    rw [hadd, hb, hvoid]
    omega
  · show Bsd._IOC Bsd.IOC_VOID group nr Uoctl.c_int.byteSize / 2 ^ 16 % 2 ^ 13 =
      Uoctl.c_int.byteSize
    rw [hadd, hb, hvoid]
    omega

/-- C8: `from_raw` returns a handle whose request code is exactly the given
32-bit code, with no validation of any kind (the constructor is total);
`with_arg`, `with_direct_arg`, `cast_mut` and `cast_const` preserve the
request code and change only the argument marker, with no re-validation. -/
theorem C8_frame_marker_only :
    ∀ (c : ℕ) (m m2 : Uoctl.Marker) (i : Uoctl.Ioctl) (t : Uoctl.RustType),
      (Uoctl.Ioctl.from_raw c m).request = c ∧
      (Uoctl.Ioctl.from_raw c m).marker = m ∧
      (i.with_arg m2).request = i.request ∧
      (i.with_arg m2).marker = m2 ∧
      i.with_direct_arg.request = i.request ∧
      i.cast_mut.request = i.request ∧
      i.cast_const.request = i.request ∧
      (i.marker = .constPtr t → i.with_direct_arg = i.with_arg (.direct t)) ∧
      (i.marker = .constPtr t → i.cast_mut = i.with_arg (.mutPtr t)) ∧
      (i.marker = .mutPtr t → i.cast_const = i.with_arg (.constPtr t)) := by
  intro c m m2 i t
  refine ⟨rfl, rfl, rfl, rfl, ?_, ?_, ?_, ?_, ?_, ?_⟩
  · obtain ⟨r, mk⟩ := i
    cases mk <;> rfl
  · obtain ⟨r, mk⟩ := i
    cases mk <;> rfl
  · obtain ⟨r, mk⟩ := i
    cases mk <;> rfl
  · intro h
    obtain ⟨r, mk⟩ := i
    subst h
    rfl
  · intro h
    obtain ⟨r, mk⟩ := i
    subst h
    rfl
  · intro h
    obtain ⟨r, mk⟩ := i
    subst h
    rfl

/-- Witness for C8 at the legacy `FIONREAD` code 0x541B and a concrete
`*const c_int` handle. -/
theorem C8_frame_marker_only_witness :
    (Uoctl.Ioctl.from_raw 0x541B .noArgs).request = 0x541B ∧
    ((⟨7, .constPtr Uoctl.c_int⟩ : Uoctl.Ioctl).cast_mut =
      (⟨7, .constPtr Uoctl.c_int⟩ : Uoctl.Ioctl).with_arg (.mutPtr Uoctl.c_int)) :=
  ⟨(C8_frame_marker_only 0x541B .noArgs .noArgs ⟨7, .constPtr Uoctl.c_int⟩ Uoctl.c_int).1,
   (C8_frame_marker_only 0x541B .noArgs .noArgs ⟨7, .constPtr Uoctl.c_int⟩
     Uoctl.c_int).2.2.2.2.2.2.2.2.1 rfl⟩

/-- C9: invocation calls the syscall collaborator with the handle's packed
request code and the argument word (exactly the zero placeholder for a
no-argument handle, the caller's argument unchanged otherwise), returns the
OS error carrying the platform's last-error code iff the collaborator
returns the sentinel -1, and otherwise returns the collaborator's raw
integer result unchanged. -/
theorem C9_invocation_contract :
    ∀ (sys : ℤ → ℕ → ℤ → ℤ) (errno fd arg : ℤ) (i : Uoctl.Ioctl),
      i.ioctlNoArgs sys errno fd = i.ioctl sys errno fd 0 ∧
      (i.ioctl sys errno fd arg = Except.error errno ↔ sys fd i.request arg = -1) ∧
      (sys fd i.request arg ≠ -1 →
        i.ioctl sys errno fd arg = Except.ok (sys fd i.request arg)) := by
  intro sys errno fd arg i
  refine ⟨rfl, ?_, ?_⟩
  · by_cases h : sys fd i.request arg = -1 <;> simp [Uoctl.Ioctl.ioctl, h]
  · intro h
    simp [Uoctl.Ioctl.ioctl, h]

/-- Witness for C9 with a mock collaborator returning 42 and another
returning the sentinel -1. -/
theorem C9_invocation_contract_witness :
    (Uoctl.Ioctl.from_raw 5 .noArgs).ioctl (fun _ _ _ => 42) 7 3 9 = Except.ok 42 ∧
    ((Uoctl.Ioctl.from_raw 5 .noArgs).ioctl (fun _ _ _ => -1) 7 3 9 = Except.error 7 ↔
      (-1 : ℤ) = -1) :=
  ⟨(C9_invocation_contract (fun _ _ _ => 42) 7 3 9 (Uoctl.Ioctl.from_raw 5 .noArgs)).2.2
      (by decide),
   (C9_invocation_contract (fun _ _ _ => -1) 7 3 9 (Uoctl.Ioctl.from_raw 5 .noArgs)).2.1⟩

/-- If direction combination succeeds, the result is the bitwise union and
neither-or-both of the operands equal the platform "none" value. -/
lemma dirOr_some_val (p : Platform) (a b c : Uoctl.Dir)
    (h : Uoctl.dirOr p a b = some c) :
    c = ⟨a.val ||| b.val⟩ ∧ ((a = Uoctl._IOC_NONE p) ↔ (b = Uoctl._IOC_NONE p)) := by
  unfold Uoctl.dirOr at h
  split at h
  · cases h
  · next hcond =>
    refine ⟨(Option.some.inj h).symm, ?_⟩
    tauto

/-- Direction values constructible through the public interface: the four
exported constants `_IOC_NONE`/`_IOC_READ`/`_IOC_WRITE`/`_IOC_READ_WRITE`
(their `IOC_VOID`/`IOC_OUT`/`IOC_IN`/`IOC_INOUT` aliases are definitionally
the same values), closed under the non-panicking cases of `Dir`'s
bitwise-or. -/
inductive DirReachable (p : Platform) : Uoctl.Dir → Prop where
  | isNone : DirReachable p (Uoctl._IOC_NONE p)
  | isRead : DirReachable p (Uoctl._IOC_READ p)
  | isWrite : DirReachable p (Uoctl._IOC_WRITE p)
  | isReadWrite : DirReachable p (Uoctl._IOC_READ_WRITE p)
  | isOr (a b c : Uoctl.Dir) : DirReachable p a → DirReachable p b →
      Uoctl.dirOr p a b = some c → DirReachable p c

/-- C10: on every supported platform, every `Dir` value constructible
through the public interface is one of the four platform direction values;
that four-element set is closed under the non-panicking cases of the
bitwise-or; and the four values are pairwise distinct. -/
theorem C10_dir_invariant :
    ∀ p : Platform, p = linuxPlatform false ∨ p = linuxPlatform true ∨ p = bsdPlatform →
      (∀ d : Uoctl.Dir, DirReachable p d →
        d = Uoctl._IOC_NONE p ∨ d = Uoctl._IOC_READ p ∨ d = Uoctl._IOC_WRITE p ∨
          d = Uoctl._IOC_READ_WRITE p) ∧
      (∀ a b c : Uoctl.Dir,
        (a = Uoctl._IOC_NONE p ∨ a = Uoctl._IOC_READ p ∨ a = Uoctl._IOC_WRITE p ∨
          a = Uoctl._IOC_READ_WRITE p) →
        (b = Uoctl._IOC_NONE p ∨ b = Uoctl._IOC_READ p ∨ b = Uoctl._IOC_WRITE p ∨
          b = Uoctl._IOC_READ_WRITE p) →
        Uoctl.dirOr p a b = some c →
        c = Uoctl._IOC_NONE p ∨ c = Uoctl._IOC_READ p ∨ c = Uoctl._IOC_WRITE p ∨
          c = Uoctl._IOC_READ_WRITE p) ∧
      (Uoctl._IOC_NONE p ≠ Uoctl._IOC_READ p ∧
       Uoctl._IOC_NONE p ≠ Uoctl._IOC_WRITE p ∧
       Uoctl._IOC_NONE p ≠ Uoctl._IOC_READ_WRITE p ∧
       Uoctl._IOC_READ p ≠ Uoctl._IOC_WRITE p ∧
       Uoctl._IOC_READ p ≠ Uoctl._IOC_READ_WRITE p ∧
       Uoctl._IOC_WRITE p ≠ Uoctl._IOC_READ_WRITE p) := by
  intro p hp
  have closure : ∀ a b c : Uoctl.Dir,
      (a = Uoctl._IOC_NONE p ∨ a = Uoctl._IOC_READ p ∨ a = Uoctl._IOC_WRITE p ∨
        a = Uoctl._IOC_READ_WRITE p) →
      (b = Uoctl._IOC_NONE p ∨ b = Uoctl._IOC_READ p ∨ b = Uoctl._IOC_WRITE p ∨
        b = Uoctl._IOC_READ_WRITE p) →
      Uoctl.dirOr p a b = some c →
      c = Uoctl._IOC_NONE p ∨ c = Uoctl._IOC_READ p ∨ c = Uoctl._IOC_WRITE p ∨
        c = Uoctl._IOC_READ_WRITE p := by
    intro a b c ha hb hor
    obtain ⟨hc, hiff⟩ := dirOr_some_val p a b c hor
    subst hc
    rcases hp with rfl | rfl | rfl <;>
      rcases ha with rfl | rfl | rfl | rfl <;>
      rcases hb with rfl | rfl | rfl | rfl <;>
      first
        | decide
        | exact absurd hiff (by decide)
  refine ⟨?_, closure, ?_⟩
  · intro d hd
    induction hd with
    | isNone => exact Or.inl rfl
    | isRead => exact Or.inr (Or.inl rfl)
    | isWrite => exact Or.inr (Or.inr (Or.inl rfl))
    | isReadWrite => exact Or.inr (Or.inr (Or.inr rfl))
    | isOr a b c ha hb hor iha ihb => exact closure a b c iha ihb hor
  · rcases hp with rfl | rfl | rfl <;> decide

/-- Witness for C10 on the BSD platform: the value built by combining read
and write through the public bitwise-or is in the four-value set, and
none/read are distinct. -/
theorem C10_dir_invariant_witness :
    (Uoctl._IOC_READ_WRITE bsdPlatform = Uoctl._IOC_NONE bsdPlatform ∨
     Uoctl._IOC_READ_WRITE bsdPlatform = Uoctl._IOC_READ bsdPlatform ∨
     Uoctl._IOC_READ_WRITE bsdPlatform = Uoctl._IOC_WRITE bsdPlatform ∨
     Uoctl._IOC_READ_WRITE bsdPlatform = Uoctl._IOC_READ_WRITE bsdPlatform) ∧
    Uoctl._IOC_NONE bsdPlatform ≠ Uoctl._IOC_READ bsdPlatform :=
  ⟨(C10_dir_invariant bsdPlatform (Or.inr (Or.inr rfl))).1 _ DirReachable.isReadWrite,
   (C10_dir_invariant bsdPlatform (Or.inr (Or.inr rfl))).2.2.1⟩

/-- Witness for the amended C7 at `group = 1`, `nr = 2`: the produced code
is the VOID-direction encoding with size 4. -/
theorem C7_iowint_amended_witness :
    Uoctl._IOWINT bsdPlatform 1 2 =
      some (Uoctl.Ioctl.from_raw (Bsd._IOC Bsd.IOC_VOID 1 2 Uoctl.c_int.byteSize)
        (.direct Uoctl.c_int)) :=
  (C7_iowint_amended 1 2 (by decide) (by decide)).1
